import Mathlib

/-!
Shallow embedding of `src/utils/z80-snapshot-info.py` (SpeccyBoot's .Z80
snapshot inspector) and proofs about it.

Bytes are modelled as `Nat` (values read from a file are 0..255).  A file
positioned at offset `pos` is modelled by the list of all input bytes
together with the offset: Python's `file.read(n)` returns
`(input.drop pos).take n` — i.e. it silently returns fewer than `n` bytes
when the file is exhausted.  `struct.unpack` raises `struct.error` when the
string it is given does not have exactly the size of its format; tuple /
string indexing out of range raises `IndexError`.  Both aborts are modelled
by the `Err` type below.
-/

/-- Failure modes of the script: `structError` models Python's
`struct.error` (unpacking a short string), `indexError` models `IndexError`
(indexing a sequence out of range). -/
inductive Err where
  | structError
  | indexError
deriving DecidableEq, Repr

/-! ## Hex+ASCII dump renderer (`flush_line`, `display_byte`,
`display_uncompressed_data`, lines 42-84 of the source).

The source keeps global accumulators `hex_seq`, `ascii_seq`, `curr_offset`,
`offset_of_curr_line`; every printed line shows the line's start offset, the
accumulated hex cells and the accumulated ASCII cells.  We model the state
explicitly and record each printed line structurally. -/

/-- One printed dump line: the `%04x` offset, the bytes shown as hex cells,
and the ASCII column. -/
structure DumpLine where
  offset : Nat
  hexBytes : List Nat
  asciiCells : List Char
deriving DecidableEq, Repr

/-- The renderer's mutable state (the source's four globals) plus the lines
printed so far. -/
structure DumpSt where
  hex_seq : List Nat
  ascii_seq : List Char
  curr_offset : Nat
  offset_of_curr_line : Nat
  printed : List DumpLine
deriving DecidableEq, Repr

/-- `flush_line` (source lines 42-51): print the accumulated line, clear the
accumulators, and remember the current offset as the next line's start. -/
def flush_line (s : DumpSt) : DumpSt :=
  { hex_seq := [], ascii_seq := [],
    curr_offset := s.curr_offset,
    offset_of_curr_line := s.curr_offset,
    printed := s.printed ++ [⟨s.offset_of_curr_line, s.hex_seq, s.ascii_seq⟩] }

/-- ASCII cell of a byte (source line 62): bytes with `ord(b) >= 32` that
occur in Python 2's `string.printable` (exactly ordinals 32..126) render
literally, everything else renders as a dot. -/
def ascii_cell (b : Nat) : Char :=
  if 32 ≤ b ∧ b ≤ 126 then Char.ofNat b else '.'

/-- `display_byte` (source lines 55-68): append the byte's hex and ASCII
cells, bump the offset, and flush when the offset reaches a multiple of
16.  Note there is no other call to `flush_line` anywhere in the source, so
a final partial line is never flushed. -/
def display_byte (b : Nat) (s : DumpSt) : DumpSt :=
  let s' : DumpSt :=
    { s with hex_seq := s.hex_seq ++ [b],
             ascii_seq := s.ascii_seq ++ [ascii_cell b],
             curr_offset := s.curr_offset + 1 }
  if s'.curr_offset % 16 = 0 then flush_line s' else s'

/-- The renderer state after the reset performed at the start of
`display_uncompressed_data` / `display_compressed_data` (lines 78-81,
94-97): empty accumulators, offsets zero, nothing printed yet. -/
def init_dump : DumpSt := ⟨[], [], 0, 0, []⟩

/-- Display a sequence of bytes from a given state, one `display_byte` call
per byte. -/
def display_bytes (bytes : List Nat) (s : DumpSt) : DumpSt :=
  bytes.foldl (fun t b => display_byte b t) s

/-- `display_uncompressed_data` (source lines 72-84): reset the dump state,
then display every byte.  No flush of a trailing partial line happens at the
end. -/
def display_uncompressed_data (bytes : List Nat) : DumpSt :=
  display_bytes bytes init_dump

/-! ## Run-length decompressor (`display_compressed_data`, lines 88-108).

The source scans with a cursor `i`:
```
i = 0
while i < len(bytes):
  b = bytes[i]
  i += 1
  if ord(b) == 0xED and i < len(bytes) and ord(bytes[i]) == 0xED:
    for j in range(ord(bytes[i + 1])): display_byte(bytes[i + 2])
    i += 3
  else:
    display_byte(b)
```
We embed the loop as `scan_compressed`, returning the sequence of bytes
passed to `display_byte` (the emitted bytes).  The loop variable `i` below
is the Python `i` *before* the `i += 1`, so the source's `bytes[i]` after
the increment is `get? (i+1)`, `bytes[i+1]` is `get? (i+2)` (the repeat
count) and `bytes[i+2]` is `get? (i+3)` (the value).  `bytes[i+1]` is
evaluated before the `for` loop, so it faults whenever the pair ends the
input; `bytes[i+2]` is evaluated only when the count is nonzero.  The loop
runs at most `bytes.length` iterations (each one advances `i` by at least
1), so `fuel = bytes.length` makes the recursion total without changing the
behaviour. -/
def scan_compressed (bytes : List Nat) : Nat → Nat → Except Err (List Nat)
  | _, 0 => .ok []
  | i, fuel + 1 =>
    match bytes.get? i with
    | none => .ok []
    | some b =>
      if b = 0xED ∧ bytes.get? (i + 1) = some 0xED then
        match bytes.get? (i + 2) with
        | none => .error .indexError
        | some c =>
          if c = 0 then
            scan_compressed bytes (i + 4) fuel
          else
            match bytes.get? (i + 3) with
            | none => .error .indexError
            | some v =>
              (scan_compressed bytes (i + 4) fuel).map
                (fun out => List.replicate c v ++ out)
      else
        (scan_compressed bytes (i + 1) fuel).map (fun out => b :: out)

/-- The sequence of bytes that `display_compressed_data` passes to
`display_byte`, or the Python exception it raises. -/
def compressed_emit (bytes : List Nat) : Except Err (List Nat) :=
  scan_compressed bytes 0 bytes.length

/-- `display_compressed_data` (source lines 88-108): reset the dump state
and display the run-length-decoded bytes (same reset and same
`display_byte` path as the uncompressed dump). -/
def display_compressed_data (bytes : List Nat) : Except Err DumpSt :=
  (compressed_emit bytes).map display_uncompressed_data

/-- The run-length scheme as the specification words it: scan left to
right; a 0xED 0xED pair is an escape whose next byte is a repeat count and
the byte after that the value — emit `value` `count` times and advance by
4; any other byte is emitted unchanged, advancing by 1; stop when the input
is exhausted.  An escape truncated before its count byte, or before its
value byte with a nonzero count, faults exactly like the source's
out-of-range indexing. -/
def rle_scan : List Nat → Except Err (List Nat)
  | [] => .ok []
  | [b] => .ok [b]
  | b :: e :: rest =>
    if b = 0xED ∧ e = 0xED then
      match rest with
      | [] => .error .indexError
      | [c] => if c = 0 then .ok [] else .error .indexError
      | c :: v :: rest2 =>
        (rle_scan rest2).map (fun out => List.replicate c v ++ out)
    else
      (rle_scan (e :: rest)).map (fun out => b :: out)

/-! ## Command-line handling (source lines 112-135).

```
if len(sys.argv) < 2: usage()
verbose = False
in_file = None
for arg in sys.argv[1:]:
  if arg == '-h': usage()
  elif arg == '-v': verbose = True
  else:
    if in_file: usage()
    in_file = open(arg)
```
`usage()` prints the usage text and exits with code 1.  If the loop
finishes with `in_file` still `None` (flags only, no filename), the program
falls through to `in_file.read(30)` and dies on an `AttributeError` —
without printing the usage text.  Opening the file is modelled as always
succeeding (the claims are about argument counting, not the filesystem). -/
inductive CliOutcome where
  | usage
  | run (file : String) (verbose : Bool)
  | crashNoFile
deriving DecidableEq, Repr

/-- The `for arg in sys.argv[1:]` loop with accumulators `in_file` and
`verbose`, plus the fall-through behaviour after the loop. -/
def arg_loop : List String → Option String → Bool → CliOutcome
  | [], none, _ => .crashNoFile
  | [], some f, v => .run f v
  | a :: rest, acc, v =>
    if a = "-h" then .usage
    else if a = "-v" then arg_loop rest acc true
    else
      match acc with
      | some _ => .usage
      | none => arg_loop rest (some a) v

/-- Argument handling for `sys.argv[1:] = args`: `len(sys.argv) < 2` prints
usage, otherwise the argument loop runs. -/
def parse_args (args : List String) : CliOutcome :=
  if args.length < 1 then .usage else arg_loop args none false

/-- An argument is positional (a filename) when it is neither `-h` nor
`-v`. -/
def is_positional (a : String) : Bool := a ≠ "-h" && a ≠ "-v"

/-! ## Header decoding (source lines 137-164). -/

/-- The 30-byte primary header, format `'<BBHHHHBBBHHHHBBHHBBB'`
(source lines 137-141).  All multi-byte fields are little-endian. -/
structure Header where
  a : Nat
  f : Nat
  bc : Nat
  hl : Nat
  pc : Nat
  sp : Nat
  i : Nat
  r : Nat
  flags : Nat
  de : Nat
  bc' : Nat
  de' : Nat
  hl' : Nat
  a' : Nat
  f' : Nat
  ix : Nat
  iy : Nat
  iff1 : Nat
  iff2 : Nat
  imode : Nat
deriving DecidableEq, Repr

/-- Little-endian 16-bit word from two bytes. -/
def u16 (lo hi : Nat) : Nat := lo + 256 * hi

/-- `struct.unpack('<BBHHHHBBBHHHHBBHHBBB', ...)`: requires exactly 30
bytes, else `struct.error`. -/
def unpackHeader (bs : List Nat) : Except Err Header :=
  if bs.length = 30 then
    .ok { a := bs.getD 0 0, f := bs.getD 1 0,
          bc := u16 (bs.getD 2 0) (bs.getD 3 0),
          hl := u16 (bs.getD 4 0) (bs.getD 5 0),
          pc := u16 (bs.getD 6 0) (bs.getD 7 0),
          sp := u16 (bs.getD 8 0) (bs.getD 9 0),
          i := bs.getD 10 0, r := bs.getD 11 0, flags := bs.getD 12 0,
          de := u16 (bs.getD 13 0) (bs.getD 14 0),
          bc' := u16 (bs.getD 15 0) (bs.getD 16 0),
          de' := u16 (bs.getD 17 0) (bs.getD 18 0),
          hl' := u16 (bs.getD 19 0) (bs.getD 20 0),
          a' := bs.getD 21 0, f' := bs.getD 22 0,
          ix := u16 (bs.getD 23 0) (bs.getD 24 0),
          iy := u16 (bs.getD 25 0) (bs.getD 26 0),
          iff1 := bs.getD 27 0, iff2 := bs.getD 28 0,
          imode := bs.getD 29 0 }
  else .error .structError

/-- `struct.unpack('<H', ...)`: requires exactly 2 bytes. -/
def unpack2 (bs : List Nat) : Except Err Nat :=
  if bs.length = 2 then .ok (u16 (bs.getD 0 0) (bs.getD 1 0))
  else .error .structError

/-- The six meaningful extended-header bytes, format `'<HBBBB'`
(source lines 145-146). -/
structure ExtHeader where
  pc : Nat
  hw_type : Nat
  hw_state : Nat
  if1_flag : Nat
  hw_flags : Nat
deriving DecidableEq, Repr

/-- `struct.unpack('<HBBBB', ...)`: requires exactly 6 bytes. -/
def unpackExt (bs : List Nat) : Except Err ExtHeader :=
  if bs.length = 6 then
    .ok { pc := u16 (bs.getD 0 0) (bs.getD 1 0), hw_type := bs.getD 2 0,
          hw_state := bs.getD 3 0, if1_flag := bs.getD 4 0,
          hw_flags := bs.getD 5 0 }
  else .error .structError

/-- `struct.unpack('<HB', ...)` for a page record header (source line 205):
requires exactly 3 bytes; yields (page_data_length, page_id). -/
def unpackPageHeader (bs : List Nat) : Except Err (Nat × Nat) :=
  if bs.length = 3 then .ok (u16 (bs.getD 0 0) (bs.getD 1 0), bs.getD 2 0)
  else .error .structError

/-! ## Hardware classification (source lines 148-161). -/

/-- The version-2 lookup tables (source lines 150-151): description and
bank count indexed by `hw_type`. -/
def hw_table_v2 : List (String × Nat) :=
  [("48k", 3), ("48k + IF1", 3), ("SamRam", 5), ("128k", 8),
   ("128k + IF1", 8)]

/-- The version-3 lookup tables (source lines 154-156). -/
def hw_table_v3 : List (String × Nat) :=
  [("48k", 3), ("48k + IF1", 3), ("SamRam", 5), ("48k + MGT", 3),
   ("128k", 8), ("128k + IF1", 8), ("128k + MGT", 8)]

/-- The `hw_flags & 0x80` remap (source lines 157-161): when bit 0x80 is
set, a description equal to `"48k"` becomes `"16k"` and one equal to
`"128k"` becomes `"128k +2"`; every other description is untouched. -/
def remap_hw_desc (hw_flags : Nat) (d : String) : String :=
  if hw_flags &&& 0x80 ≠ 0 then
    if d = "48k" then "16k"
    else if d = "128k" then "128k +2"
    else d
  else d

/-- The compatibility check (source lines 179-184): a `"128k"` description
checks paging-state bit 0x08 (screen at page 7); otherwise anything that is
neither `"48k"` nor `"16k"` is reported as an unsupported configuration.
Warnings are printed, not fatal. -/
def compat_warnings (hw_desc : String) (hw_state : Nat) : List String :=
  if hw_desc = "128k" then
    if hw_state &&& 0x08 ≠ 0 then ["incompatible snapshot: screen at page 7"]
    else []
  else if hw_desc ≠ "48k" ∧ hw_desc ≠ "16k" then
    ["incompatible snapshot: unsupported configuration: " ++ hw_desc]
  else []

/-! ## Snapshot decoding (source lines 137-213, minus the verbose dumps). -/

/-- One version-2/3 page record: page id, the declared length field
(`0xffff` means "uncompressed, read 0x4000 bytes"), and the raw bytes
actually read for it. -/
structure PageRec where
  id : Nat
  declared_len : Nat
  data : List Nat
deriving DecidableEq, Repr

/-- The memory section of the report: a version-1 uncompressed block, a
version-1 compressed block (read to end of file, run-length decoded only
when dumped verbosely), or the version-2/3 page list. -/
inductive Body where
  | v1Uncomp (data : List Nat)
  | v1Comp (data : List Nat)
  | paged (pages : List PageRec)
deriving DecidableEq, Repr

/-- What the inspector reports for a snapshot: format version, hardware
description, bank count (undefined for version 1), compatibility warnings,
and the memory section. -/
structure SnapInfo where
  version : Nat
  hw_desc : String
  nbr_banks : Option Nat
  warnings : List String
  body : Body
deriving DecidableEq, Repr

/-- The page loop (source lines 204-213): `nbr_banks` times, unpack a
3-byte record header (aborting like `struct.unpack` when fewer than 3 bytes
remain), then `read` either 0x4000 bytes (length sentinel 0xffff) or the
declared number of bytes.  The payload `read` silently returns whatever is
left when the file is short; advancing the position past the end of the
input is harmless because every later `read` of the exhausted file yields
`[]` either way. -/
def read_pages (input : List Nat) : Nat → Nat → Except Err (List PageRec)
  | 0, _ => .ok []
  | n + 1, pos =>
    match unpackPageHeader ((input.drop pos).take 3) with
    | .error e => .error e
    | .ok (len, pid) =>
      let count := if len = 0xffff then 0x4000 else len
      let data := (input.drop (pos + 3)).take count
      (read_pages input n (pos + 3 + count)).map
        (fun ps => ⟨pid, len, data⟩ :: ps)

/-- The extended-header path (source lines 143-161 and 202-213), entered
when the primary header's `pc` is zero.  Reads the 2-byte sub-header
length, the 6 meaningful fields, skips the remainder
(`in_file.read(sub_header_length - 6)`; with a Python int this count can be
negative, in which case `read` consumes the rest of the file), selects the
version and lookup tables from `sub_header_length == 23`, indexes them by
`hw_type` (IndexError when out of range), applies the `hw_flags` remap and
the compatibility check, then reads the page table. -/
def decode_extended (input : List Nat) : Except Err SnapInfo :=
  match unpack2 ((input.drop 30).take 2) with
  | .error e => .error e
  | .ok sub_header_length =>
    match unpackExt ((input.drop 32).take 6) with
    | .error e => .error e
    | .ok ext =>
      let body_start : Nat :=
        if sub_header_length < 6 then input.length else 32 + sub_header_length
      let version : Nat := if sub_header_length = 23 then 2 else 3
      let table := if sub_header_length = 23 then hw_table_v2 else hw_table_v3
      match table.get? ext.hw_type with
      | none => .error .indexError
      | some (d, nbr_banks) =>
        let hw_desc := remap_hw_desc ext.hw_flags d
        (read_pages input nbr_banks body_start).map
          (fun ps =>
            { version := version, hw_desc := hw_desc,
              nbr_banks := some nbr_banks,
              warnings := compat_warnings hw_desc ext.hw_state,
              body := .paged ps })

/-- The version-1 body dispatch condition (source line 194):
`flags == 0xff or (flags & 0x20) == 0` selects the single uncompressed
0xC000-byte block; anything else reads the rest of the file as one
compressed block. -/
def v1_uncompressed (flags : Nat) : Bool :=
  flags == 0xff || flags &&& 0x20 == 0

/-- The whole decoding pipeline for one snapshot file (source lines
137-213): unpack the 30-byte primary header; if `pc` is zero take the
extended-header path, otherwise it is a version-1 snapshot with hardware
fixed to `"48k"` and the body starting right after the 30 header bytes.
In the version-1 path the compatibility check runs with `hw_desc = "48k"`,
so neither warning branch fires and `hw_state` (an undefined Python
variable there) is never evaluated; the second argument to
`compat_warnings` is therefore irrelevant. -/
def decodeSnapshot (input : List Nat) : Except Err SnapInfo :=
  match unpackHeader (input.take 30) with
  | .error e => .error e
  | .ok hdr =>
    if hdr.pc = 0 then
      decode_extended input
    else
      if v1_uncompressed hdr.flags then
        .ok { version := 1, hw_desc := "48k", nbr_banks := none,
              warnings := compat_warnings "48k" 0,
              body := .v1Uncomp ((input.drop 30).take 0xc000) }
      else
        .ok { version := 1, hw_desc := "48k", nbr_banks := none,
              warnings := compat_warnings "48k" 0,
              body := .v1Comp (input.drop 30) }

/-! ## Concrete inputs used by the theorems below. -/

/-- A version-2 snapshot (primary `pc = 0`, sub-header length 23,
`hw_type = 0` so three 16 KiB pages) whose third page record declares 5
payload bytes but is followed by only 2 before end of file. -/
def c3_short_payload : List Nat :=
  List.replicate 30 0 ++ [23, 0] ++ [0, 0x80, 0, 0, 0, 0]
  ++ List.replicate 17 0
  ++ [1, 0, 8, 0xAA] ++ [1, 0, 4, 0xBB] ++ [5, 0, 5, 0xCC, 0xCC]

/-- A file holding only the 30 primary-header bytes with `pc = 0`: the
2-byte sub-header length read comes back empty. -/
def c3_header_only : List Nat := List.replicate 30 0

/-- Primary header (`pc = 0`) and sub-header length, then only 3 of the 6
extended-header bytes. -/
def c3_trunc_ext : List Nat :=
  List.replicate 30 0 ++ [23, 0] ++ [1, 2, 3]

/-- A version-2 snapshot (three pages expected) that ends after the second
complete page record: the third 3-byte page record header is missing. -/
def c3_trunc_page_header : List Nat :=
  List.replicate 30 0 ++ [23, 0] ++ [0, 0x80, 0, 0, 0, 0]
  ++ List.replicate 17 0
  ++ [1, 0, 8, 0xAA] ++ [1, 0, 4, 0xBB]

/-- A version-2 snapshot with `hw_type = 3` (the `"128k"` row, 8 banks) and
eight zero-length page records. -/
def c9_input_v2 : List Nat :=
  List.replicate 30 0 ++ [23, 0] ++ [0, 0x80, 3, 0, 0, 0]
  ++ List.replicate 17 0
  ++ [0, 0, 0, 0, 0, 1, 0, 0, 2, 0, 0, 3, 0, 0, 4, 0, 0, 5, 0, 0, 6,
      0, 0, 7]

/-- The same snapshot with sub-header length 54 instead of 23: version 3,
where `hw_type = 3` is the `"48k + MGT"` row with 3 banks. -/
def c9_input_v3 : List Nat :=
  List.replicate 30 0 ++ [54, 0] ++ [0, 0x80, 3, 0, 0, 0]
  ++ List.replicate 48 0
  ++ [0, 0, 0, 0, 0, 1, 0, 0, 2]

/-- A 30-byte version-1 file: `pc = 0x1234`, all other fields zero (so
`flags` bit 0x20 is clear). -/
def c8_input : List Nat :=
  List.replicate 6 0 ++ [0x34, 0x12] ++ List.replicate 22 0

/-- The header `c8_input` unpacks to. -/
def c8_header : Header :=
  { a := 0, f := 0, bc := 0, hl := 0, pc := 0x1234, sp := 0, i := 0, r := 0,
    flags := 0, de := 0, bc' := 0, de' := 0, hl' := 0, a' := 0, f' := 0,
    ix := 0, iy := 0, iff1 := 0, iff2 := 0, imode := 0 }

/-- A 30-byte version-1 file with `pc = 1` and `flags = 0xff`. -/
def c10_input : List Nat :=
  List.replicate 6 0 ++ [1, 0] ++ List.replicate 4 0 ++ [0xff]
  ++ List.replicate 17 0

/-- The header `c10_input` unpacks to. -/
def c10_header : Header :=
  { a := 0, f := 0, bc := 0, hl := 0, pc := 1, sp := 0, i := 0, r := 0,
    flags := 0xff, de := 0, bc' := 0, de' := 0, hl' := 0, a' := 0, f' := 0,
    ix := 0, iy := 0, iff1 := 0, iff2 := 0, imode := 0 }

/-- Number of filenames already held by the argument loop's accumulator. -/
def acc_positionals : Option String → Nat
  | none => 0
  | some _ => 1

/-! ## Helper lemmas about list indexing and dropping. -/

theorem getElem?_eq_head?_drop {α : Type} (l : List α) :
    ∀ i : Nat, l[i]? = (l.drop i).head? := by
  induction l with
  | nil => intro i; simp
  | cons x xs ih =>
    intro i
    cases i with
    | zero => simp
    | succ j => simp

theorem drop_succ_eq_tail_drop {α : Type} (l : List α) :
    ∀ i : Nat, l.drop (i + 1) = (l.drop i).tail := by
  induction l with
  | nil => intro i; simp
  | cons x xs ih =>
    intro i
    cases i with
    | zero => rfl
    | succ j => exact ih j

theorem drop_cons_of_getElem? {α : Type} {l : List α} {i : Nat} {b : α}
    (h : l[i]? = some b) : l.drop i = b :: l.drop (i + 1) := by
  cases hd : l.drop i with
  | nil => rw [getElem?_eq_head?_drop, hd] at h; cases h
  | cons x t =>
    rw [getElem?_eq_head?_drop, hd] at h
    obtain rfl : x = b := by injection h
    rw [drop_succ_eq_tail_drop, hd]
    rfl

theorem drop_nil_of_getElem?_none {α : Type} {l : List α} {i : Nat}
    (h : l[i]? = none) : l.drop i = [] := by
  cases hd : l.drop i with
  | nil => rfl
  | cons x t => rw [getElem?_eq_head?_drop, hd] at h; cases h

/-- Unfolding equation of `rle_scan` on a list with at least two
elements. -/
theorem rle_scan_cons_cons (b e : Nat) (rest : List Nat) :
    rle_scan (b :: e :: rest) =
      if b = 0xED ∧ e = 0xED then
        match rest with
        | [] => .error .indexError
        | [c] => if c = 0 then .ok [] else .error .indexError
        | c :: v :: rest2 =>
          (rle_scan rest2).map (fun out => List.replicate c v ++ out)
      else (rle_scan (e :: rest)).map (fun out => b :: out) := by
  rw [rle_scan.eq_def]

/-- The cursor-driven loop of `display_compressed_data` computes, from any
position it can reach, exactly the structural left-to-right scan of the
remaining input. -/
theorem scan_compressed_eq_rle_scan (bytes : List Nat) :
    ∀ (fuel i : Nat), bytes.length ≤ i + fuel →
      scan_compressed bytes i fuel = rle_scan (bytes.drop i) := by
  intro fuel
  induction fuel with
  | zero =>
    intro i h
    have hd : bytes.drop i = [] := List.drop_eq_nil_of_le (by omega)
    rw [hd]
    rfl
  | succ fuel ih =>
    intro i h
    cases hb : bytes[i]? with
    | none =>
      rw [drop_nil_of_getElem?_none hb]
      simp [scan_compressed, hb, rle_scan]
    | some b =>
      have hd := drop_cons_of_getElem? hb
      by_cases hED : b = 0xED ∧ bytes[i + 1]? = some 0xED
      · obtain ⟨hb', he⟩ := hED
        subst hb'
        have hd1 := drop_cons_of_getElem? he
        cases hc : bytes[i + 2]? with
        | none =>
          have hd2 := drop_nil_of_getElem?_none hc
          rw [hd, hd1, hd2]
          simp [scan_compressed, hb, he, hc, rle_scan]
        | some c =>
          have hd2 := drop_cons_of_getElem? hc
          cases hv : bytes[i + 3]? with
          | none =>
            have hd3 := drop_nil_of_getElem?_none hv
            have h4 : bytes.drop (i + 4) = [] := by
              rw [show i + 4 = (i + 3) + 1 by omega, drop_succ_eq_tail_drop,
                  hd3]
              rfl
            by_cases hc0 : c = 0
            · subst hc0
              rw [hd, hd1, hd2, hd3]
              have hrec := ih (i + 4) (by omega)
              rw [h4] at hrec
              simp [scan_compressed, hb, he, hc, hrec, rle_scan]
            · rw [hd, hd1, hd2, hd3]
              simp [scan_compressed, hb, he, hc, hv, hc0, rle_scan]
          | some v =>
            have hd3 := drop_cons_of_getElem? hv
            have hrec := ih (i + 4) (by omega)
            rw [hd, hd1, hd2, hd3,
                show i + 3 + 1 = i + 4 by omega]
            by_cases hc0 : c = 0
            · subst hc0
              simp [scan_compressed, hb, he, hc, hrec, rle_scan]
              cases hr : rle_scan (bytes.drop (i + 4)) <;> simp [Except.map]
            · simp [scan_compressed, hb, he, hc, hv, hc0, hrec, rle_scan]
      · have hrec := ih (i + 1) (by omega)
        rw [hd]
        cases hd1 : bytes.drop (i + 1) with
        | nil =>
          rw [hd1] at hrec
          simp [scan_compressed, hb, hED, hrec, rle_scan, Except.map]
        | cons e rest =>
          have he : bytes[i + 1]? = some e := by
            rw [getElem?_eq_head?_drop, hd1]
            rfl
          have hne : ¬(b = 0xED ∧ e = 0xED) := by
            intro hp
            exact hED ⟨hp.1, by rw [he, hp.2]⟩
          rw [hd1] at hrec
          rw [rle_scan_cons_cons, if_neg hne]
          simp [scan_compressed, hb, hED, hrec, Except.map]

/-- C4: for every compressed input stream, the decompressor scans left to
right: with the cursor on the second byte of an 0xED 0xED pair, it emits
the value byte (two past the pair's second byte) repeated count-byte (one
past) times and advances the cursor by 4; at any other position it emits
the current byte unchanged and advances by 1; it continues until the input
is exhausted.  Stated as: the source's cursor loop (`compressed_emit`)
coincides with `rle_scan`, the structural rendering of exactly that
description, on every input. -/
theorem c4_decompressor_matches_rle_spec (bytes : List Nat) :
    compressed_emit bytes = rle_scan bytes := by
  have h := scan_compressed_eq_rle_scan bytes bytes.length 0 (by omega)
  simpa [compressed_emit] using h

/-- C5: an input ending inside a run-length escape is reachable and makes
the decoder index past the end of the input array (Python `IndexError`)
instead of failing with a truncation error: `[0xED, 0xED]` faults reading
the missing count byte (one past the last index) and `[0xED, 0xED, 2]`
faults reading the missing value byte; the fault is an indexing error, not
the `struct.error` that models `TruncatedInput`. -/
theorem c5_oob_reachable :
    compressed_emit [0xED, 0xED] = .error .indexError ∧
    compressed_emit [0xED, 0xED, 2] = .error .indexError ∧
    compressed_emit [0xED, 0xED] ≠ .error .structError :=
  ⟨rfl, rfl, by
    rw [show compressed_emit [0xED, 0xED] = Except.error Err.indexError
        from rfl]
    simp⟩

/-- C1 (the code at the failing input): dumping a 17-byte input produces
exactly ONE printed line — the full 16-byte line at offset 0 — while the
17th byte stays in the accumulators (`hex_seq`/`ascii_seq`) and is never
flushed.  The claim's 2-line output (with a 1-byte partial line at offset
0x0010) does not happen: no code path flushes a final partial line. -/
theorem c1_dump_drops_final_partial_line :
    (display_uncompressed_data (List.replicate 17 0)).printed =
      [⟨0, List.replicate 16 0, List.replicate 16 '.'⟩] ∧
    (display_uncompressed_data (List.replicate 17 0)).hex_seq = [0] ∧
    (display_uncompressed_data (List.replicate 17 0)).ascii_seq = ['.'] ∧
    (display_uncompressed_data (List.replicate 17 0)).curr_offset = 17 :=
  ⟨rfl, rfl, rfl, rfl⟩

/-- C2 counterexample: a final description of `"128k"` is neither `"48k"`
nor `"16k"`, yet with `hw_state` bit 0x08 clear the compatibility check
emits NO warning at all — in particular not the unsupported-configuration
warning the claim promises for every non-48k/16k description.  (The
`"128k"` case is consumed by the first branch of the check, which only
looks at the screen-page bit.) -/
theorem c2_counterexample_128k_no_unsupported_warning :
    ("128k" ≠ "48k" ∧ "128k" ≠ "16k") ∧ compat_warnings "128k" 0 = [] :=
  ⟨⟨by decide, by decide⟩, rfl⟩

/-- C2 amended: a profile whose final description is none of `"48k"`,
`"16k"` and `"128k"` gets the unsupported-configuration warning; a
`"128k"` profile gets the screen-at-page-7 warning exactly when `hw_state`
bit 0x08 is set (and no warning otherwise); a `"SamRam"` profile always
gets the unsupported-configuration warning regardless of `hw_state`. -/
theorem c2_compat_warnings_amended (d : String) (st : Nat) :
    (d ≠ "48k" → d ≠ "16k" → d ≠ "128k" →
       compat_warnings d st =
         ["incompatible snapshot: unsupported configuration: " ++ d]) ∧
    (st &&& 0x08 ≠ 0 →
       compat_warnings "128k" st =
         ["incompatible snapshot: screen at page 7"]) ∧
    (st &&& 0x08 = 0 → compat_warnings "128k" st = []) ∧
    compat_warnings "SamRam" st =
      ["incompatible snapshot: unsupported configuration: SamRam"] := by
  refine ⟨?_, ?_, ?_, ?_⟩
  · intro h1 h2 h3
    unfold compat_warnings
    rw [if_neg h3, if_pos ⟨h1, h2⟩]
  · intro hbit
    unfold compat_warnings
    rw [if_pos rfl, if_pos hbit]
  · intro hbit
    unfold compat_warnings
    rw [if_pos rfl, if_neg (by simp [hbit])]
  · unfold compat_warnings
    rw [if_neg (by decide), if_pos ⟨by decide, by decide⟩]
    rfl

theorem c2_compat_warnings_amended_witness :
    ("128k +2" ≠ "48k" ∧ "128k +2" ≠ "16k" ∧ "128k +2" ≠ "128k") ∧
    compat_warnings "128k +2" 0x08 =
      ["incompatible snapshot: unsupported configuration: 128k +2"] ∧
    (0x08 &&& 0x08 ≠ 0) ∧
    compat_warnings "128k" 0x08 =
      ["incompatible snapshot: screen at page 7"] ∧
    compat_warnings "SamRam" 0 =
      ["incompatible snapshot: unsupported configuration: SamRam"] :=
  ⟨⟨by decide, by decide, by decide⟩,
   (c2_compat_warnings_amended "128k +2" 0x08).1 (by decide) (by decide)
     (by decide),
   by decide,
   (c2_compat_warnings_amended "128k" 0x08).2.1 (by decide),
   (c2_compat_warnings_amended "SamRam" 0).2.2.2⟩

/-- C9 counterexample: the version-3 table entry for hardware-type code 3
is the literal description `"48k + MGT"` (with spaces, as in the source),
not the claim's `"48k+MGT"`. -/
theorem c9_counterexample_desc_literal :
    hw_table_v3.get? 3 = some ("48k + MGT", 3) ∧
    hw_table_v3.get? 3 ≠ some ("48k+MGT", 3) :=
  ⟨rfl, by decide⟩

/-- C9 amended: the classifier's table depends on the detected version —
under version 2 the 5-entry table with page counts {3,3,5,8,8}, under
version 3 the 7-entry table with page counts {3,3,5,3,8,8,8}; code 3
yields description `"128k"` with 8 banks under version 2 and `"48k + MGT"`
(spaces as in the source) with 3 banks under version 3 — demonstrated both
on the tables and end-to-end on two snapshots identical except for the
sub-header length (23 vs 54). -/
theorem c9_tables_amended :
    hw_table_v2.length = 5 ∧ hw_table_v3.length = 7 ∧
    hw_table_v2.map Prod.snd = [3, 3, 5, 8, 8] ∧
    hw_table_v3.map Prod.snd = [3, 3, 5, 3, 8, 8, 8] ∧
    hw_table_v2.get? 3 = some ("128k", 8) ∧
    hw_table_v3.get? 3 = some ("48k + MGT", 3) ∧
    (decodeSnapshot c9_input_v2).map
        (fun r => (r.version, r.hw_desc, r.nbr_banks)) =
      .ok (2, "128k", some 8) ∧
    (decodeSnapshot c9_input_v3).map
        (fun r => (r.version, r.hw_desc, r.nbr_banks)) =
      .ok (3, "48k + MGT", some 3) :=
  ⟨rfl, rfl, rfl, rfl, rfl, rfl, rfl, rfl⟩

/-- Decoding `c3_short_payload` succeeds even though its last page record
declares 5 payload bytes and only 2 are present: the payload `read`
silently returns the short block. -/
theorem decode_c3_short_payload :
    decodeSnapshot c3_short_payload =
      .ok { version := 2, hw_desc := "48k", nbr_banks := some 3,
            warnings := [],
            body := .paged [⟨8, 1, [0xAA]⟩, ⟨4, 1, [0xBB]⟩,
                            ⟨5, 5, [0xCC, 0xCC]⟩] } := rfl

/-- C3 counterexample: a snapshot whose last page record declares 5 payload
bytes while only 2 remain decodes successfully, silently keeping the short
block — no `TruncatedInput`-style abort happens for a short page
payload. -/
theorem c3_counterexample_short_payload_decodes :
    decodeSnapshot c3_short_payload =
      .ok { version := 2, hw_desc := "48k", nbr_banks := some 3,
            warnings := [],
            body := .paged [⟨8, 1, [0xAA]⟩, ⟨4, 1, [0xBB]⟩,
                            ⟨5, 5, [0xCC, 0xCC]⟩] } ∧
    (([0xCC, 0xCC] : List Nat).length < 5) :=
  ⟨decode_c3_short_payload, by decide⟩

/-- C3 amended: truncation is fatal exactly at the reads that go through
`struct.unpack` — the 30-byte primary header (any input shorter than 30
bytes), the 2-byte extended-header length, the 6 fixed extended-header
bytes, and a 3-byte page record header — where it aborts with the
unpacking error; truncation inside a page's declared payload is silently
accepted and the short block is decoded (no abort of either kind). -/
theorem c3_truncation_amended :
    (∀ input : List Nat, input.length < 30 →
       decodeSnapshot input = .error .structError) ∧
    decodeSnapshot c3_header_only = .error .structError ∧
    decodeSnapshot c3_trunc_ext = .error .structError ∧
    decodeSnapshot c3_trunc_page_header = .error .structError ∧
    decodeSnapshot c3_short_payload ≠ .error .structError ∧
    decodeSnapshot c3_short_payload ≠ .error .indexError := by
  refine ⟨?_, rfl, rfl, rfl, ?_, ?_⟩
  · intro input hlen
    have h30 : (input.take 30).length ≠ 30 := by
      rw [List.length_take]
      omega
    unfold decodeSnapshot unpackHeader
    rw [if_neg h30]
  · rw [decode_c3_short_payload]
    simp
  · rw [decode_c3_short_payload]
    simp

theorem c3_truncation_amended_witness :
    ([] : List Nat).length < 30 ∧ decodeSnapshot [] = .error .structError :=
  ⟨by decide, c3_truncation_amended.1 [] (by decide)⟩

/-- Unfolding equation of `arg_loop` on a nonempty argument list. -/
theorem arg_loop_cons (a : String) (rest : List String) (acc : Option String)
    (v : Bool) :
    arg_loop (a :: rest) acc v =
      if a = "-h" then .usage
      else if a = "-v" then arg_loop rest acc true
      else
        match acc with
        | some _ => .usage
        | none => arg_loop rest (some a) v := by
  rw [arg_loop.eq_def]

/-- Whenever `-h` occurs among the remaining arguments, the loop ends in
the usage message, whatever its accumulated state. -/
theorem arg_loop_usage_of_mem_h :
    ∀ (args : List String) (acc : Option String) (v : Bool),
      "-h" ∈ args → arg_loop args acc v = .usage := by
  intro args
  induction args with
  | nil => intro acc v hmem; cases hmem
  | cons a rest ih =>
    intro acc v hmem
    by_cases ha : a = "-h"
    · subst ha
      rw [arg_loop_cons, if_pos rfl]
    · have hr : "-h" ∈ rest := by
        rcases List.mem_cons.mp hmem with h1 | h1
        · exact absurd h1.symm ha
        · exact h1
      by_cases hv : a = "-v"
      · subst hv
        rw [arg_loop_cons, if_neg ha, if_pos rfl, ih _ _ hr]
      · rw [arg_loop_cons, if_neg ha, if_neg hv]
        cases acc with
        | some f => rfl
        | none => exact ih _ _ hr

/-- Whenever the accumulated filename plus the remaining positional
arguments amount to two or more filenames, the loop ends in the usage
message. -/
theorem arg_loop_usage_of_many_positionals :
    ∀ (args : List String) (acc : Option String) (v : Bool),
      2 ≤ acc_positionals acc + (args.filter is_positional).length →
      arg_loop args acc v = .usage := by
  intro args
  induction args with
  | nil =>
    intro acc v h
    cases acc <;> simp [acc_positionals] at h
  | cons a rest ih =>
    intro acc v h
    by_cases ha : a = "-h"
    · subst ha
      rw [arg_loop_cons, if_pos rfl]
    · by_cases hv : a = "-v"
      · subst hv
        have hfil : ("-v" :: rest).filter is_positional =
            rest.filter is_positional := by
          rw [List.filter_cons_of_neg]
          decide
        rw [hfil] at h
        rw [arg_loop_cons, if_neg ha, if_pos rfl]
        exact ih _ _ h
      · have hpos : is_positional a = true := by
          simp [is_positional, ha, hv]
        rw [List.filter_cons_of_pos hpos] at h
        rw [arg_loop_cons, if_neg ha, if_neg hv]
        cases acc with
        | some f => rfl
        | none =>
          refine ih (some a) v ?_
          simp [acc_positionals] at h ⊢
          omega

/-- With a filename already accumulated and no further `-h` or positional
argument, the loop finishes and runs on that file; verbose is the
accumulated flag or any remaining `-v`. -/
theorem arg_loop_run_of_some :
    ∀ (args : List String) (f : String) (v : Bool),
      "-h" ∉ args → args.filter is_positional = [] →
      arg_loop args (some f) v = .run f (v || args.contains "-v") := by
  intro args
  induction args with
  | nil => intro f v _ _; simp [arg_loop]
  | cons a rest ih =>
    intro f v hh hf
    have ha : a ≠ "-h" := by
      intro h
      exact hh (by rw [← h]; exact List.mem_cons_self a rest)
    have hh' : "-h" ∉ rest := fun h => hh (List.mem_cons_of_mem _ h)
    have hpos : is_positional a = false := by
      by_contra hp
      have hpt : is_positional a = true := by
        revert hp
        cases is_positional a <;> simp
      rw [List.filter_cons_of_pos hpt] at hf
      cases hf
    have hav : a = "-v" := by
      simp [is_positional, ha] at hpos
      exact hpos
    subst hav
    rw [List.filter_cons_of_neg (by decide)] at hf
    rw [arg_loop_cons, if_neg (by decide), if_pos rfl, ih f true hh' hf]
    simp [List.contains_cons]

/-- With no filename accumulated and exactly one positional argument
remaining (and no `-h`), the loop runs on that file. -/
theorem arg_loop_run_of_one_positional :
    ∀ (args : List String) (f : String) (v : Bool),
      "-h" ∉ args → args.filter is_positional = [f] →
      arg_loop args none v = .run f (v || args.contains "-v") := by
  intro args
  induction args with
  | nil => intro f v _ hf; cases hf
  | cons a rest ih =>
    intro f v hh hf
    have ha : a ≠ "-h" := by
      intro h
      exact hh (by rw [← h]; exact List.mem_cons_self a rest)
    have hh' : "-h" ∉ rest := fun h => hh (List.mem_cons_of_mem _ h)
    by_cases hpos : is_positional a = true
    · rw [List.filter_cons_of_pos hpos] at hf
      injection hf with h1 h2
      subst h1
      have hav : a ≠ "-v" := by
        simp [is_positional] at hpos
        exact hpos.2
      rw [arg_loop_cons, if_neg ha, if_neg hav]
      dsimp only
      rw [arg_loop_run_of_some rest a v hh' h2]
      have hc : (a :: rest).contains "-v" = rest.contains "-v" := by
        rw [List.contains_cons]
        simp [Ne.symm hav]
      rw [hc]
    · have hpf : is_positional a = false := by
        revert hpos
        cases is_positional a <;> simp
      have hav : a = "-v" := by
        simp [is_positional, ha] at hpf
        exact hpf
      subst hav
      rw [List.filter_cons_of_neg (by decide)] at hf
      rw [arg_loop_cons, if_neg (by decide), if_pos rfl, ih f true hh' hf]
      simp [List.contains_cons]

/-- With no filename accumulated and no positional argument remaining (and
no `-h`), the loop finishes without a file: the program goes on to call
`in_file.read(30)` on `None` and crashes — no usage message. -/
theorem arg_loop_crash_of_no_positional :
    ∀ (args : List String) (v : Bool),
      "-h" ∉ args → args.filter is_positional = [] →
      arg_loop args none v = .crashNoFile := by
  intro args
  induction args with
  | nil => intro v _ _; rfl
  | cons a rest ih =>
    intro v hh hf
    have ha : a ≠ "-h" := by
      intro h
      exact hh (by rw [← h]; exact List.mem_cons_self a rest)
    have hh' : "-h" ∉ rest := fun h => hh (List.mem_cons_of_mem _ h)
    have hpos : is_positional a = false := by
      by_contra hp
      have hpt : is_positional a = true := by
        revert hp
        cases is_positional a <;> simp
      rw [List.filter_cons_of_pos hpt] at hf
      cases hf
    have hav : a = "-v" := by
      simp [is_positional, ha] at hpos
      exact hpos
    subst hav
    rw [List.filter_cons_of_neg (by decide)] at hf
    rw [arg_loop_cons, if_neg (by decide), if_pos rfl]
    exact ih true hh' hf

/-- C6 counterexample: a command line with zero positional filename
arguments need not trigger the usage text — `prog -v` passes argument
parsing with no input file and later crashes on the first read, never
printing usage. -/
theorem c6_counterexample_flags_only_no_usage :
    parse_args ["-v"] = .crashNoFile ∧ parse_args ["-v"] ≠ .usage :=
  ⟨rfl, by decide⟩

/-- C6 amended: an EMPTY command line, a `-h` anywhere, or two or more
positional arguments trigger the usage text (exit code 1); exactly one
positional argument with optional `-v` flags (and no `-h`) proceeds to
decoding, verbose iff some `-v` is present; a nonempty command line with
no positional argument and no `-h` (only `-v` flags) does NOT print usage:
it proceeds fileless and crashes at the first input read. -/
theorem c6_cli_amended :
    parse_args [] = .usage ∧
    (∀ args : List String, "-h" ∈ args → parse_args args = .usage) ∧
    (∀ args : List String, 2 ≤ (args.filter is_positional).length →
       parse_args args = .usage) ∧
    (∀ (args : List String) (f : String),
       "-h" ∉ args → args.filter is_positional = [f] →
       parse_args args = .run f (args.contains "-v")) ∧
    (∀ args : List String, args ≠ [] → "-h" ∉ args →
       args.filter is_positional = [] → parse_args args = .crashNoFile) := by
  refine ⟨rfl, ?_, ?_, ?_, ?_⟩
  · intro args hmem
    have hne : args ≠ [] := by
      intro h
      subst h
      cases hmem
    have hlen : ¬(args.length < 1) := by
      have := List.length_pos.mpr hne
      omega
    unfold parse_args
    rw [if_neg hlen]
    exact arg_loop_usage_of_mem_h args none false hmem
  · intro args hcount
    have hne : args ≠ [] := by
      intro h
      subst h
      simp at hcount
    have hlen : ¬(args.length < 1) := by
      have := List.length_pos.mpr hne
      omega
    unfold parse_args
    rw [if_neg hlen]
    refine arg_loop_usage_of_many_positionals args none false ?_
    simpa [acc_positionals] using hcount
  · intro args f hh hf
    have hne : args ≠ [] := by
      intro h
      subst h
      cases hf
    have hlen : ¬(args.length < 1) := by
      have := List.length_pos.mpr hne
      omega
    unfold parse_args
    rw [if_neg hlen, arg_loop_run_of_one_positional args f false hh hf]
    simp
  · intro args hne hh hf
    have hlen : ¬(args.length < 1) := by
      have := List.length_pos.mpr hne
      omega
    unfold parse_args
    rw [if_neg hlen]
    exact arg_loop_crash_of_no_positional args false hh hf

theorem c6_cli_amended_witness :
    ("-h" ∈ ["a.z80", "-h"] ∧ parse_args ["a.z80", "-h"] = .usage) ∧
    (2 ≤ (["a.z80", "b.z80"].filter is_positional).length ∧
      parse_args ["a.z80", "b.z80"] = .usage) ∧
    ("-h" ∉ ["-v", "b.z80"] ∧
      ["-v", "b.z80"].filter is_positional = ["b.z80"] ∧
      parse_args ["-v", "b.z80"] = .run "b.z80" true) ∧
    ((["-v"] : List String) ≠ [] ∧ "-h" ∉ ["-v"] ∧
      ["-v"].filter is_positional = [] ∧
      parse_args ["-v"] = .crashNoFile) :=
  ⟨⟨by decide, c6_cli_amended.2.1 _ (by decide)⟩,
   ⟨by decide, c6_cli_amended.2.2.1 _ (by decide)⟩,
   ⟨by decide, by decide, by
     have h := c6_cli_amended.2.2.2.1 ["-v", "b.z80"] "b.z80" (by decide)
       (by decide)
     simpa using h⟩,
   ⟨by decide, by decide, by decide,
     c6_cli_amended.2.2.2.2 ["-v"] (by decide) (by decide) (by decide)⟩⟩

/-- C7: with hardware-flags bit 0x80 set, a resolved description equal to
`"48k"` is remapped to `"16k"` and one equal to `"128k"` to `"128k +2"`;
the match is on the resolved description string (so e.g. `"48k + MGT"`,
which merely contains "48k", is untouched); every other description is
unaffected, and nothing is remapped when bit 0x80 is clear. -/
theorem c7_remap_on_description (hf : Nat) (d : String) :
    (hf &&& 0x80 ≠ 0 →
       remap_hw_desc hf "48k" = "16k" ∧
       remap_hw_desc hf "128k" = "128k +2" ∧
       (d ≠ "48k" → d ≠ "128k" → remap_hw_desc hf d = d)) ∧
    (hf &&& 0x80 = 0 → remap_hw_desc hf d = d) := by
  constructor
  · intro hbit
    refine ⟨?_, ?_, ?_⟩
    · unfold remap_hw_desc
      rw [if_pos hbit, if_pos rfl]
    · unfold remap_hw_desc
      rw [if_pos hbit, if_neg (by decide), if_pos rfl]
    · intro h1 h2
      unfold remap_hw_desc
      rw [if_pos hbit, if_neg h1, if_neg h2]
  · intro hzero
    unfold remap_hw_desc
    rw [if_neg (by simp [hzero])]

theorem c7_remap_witness :
    ((0x80 : Nat) &&& 0x80 ≠ 0) ∧
    remap_hw_desc 0x80 "48k" = "16k" ∧
    remap_hw_desc 0x80 "128k" = "128k +2" ∧
    ("48k + MGT" ≠ "48k" ∧ "48k + MGT" ≠ "128k") ∧
    remap_hw_desc 0x80 "48k + MGT" = "48k + MGT" ∧
    ((0 : Nat) &&& 0x80 = 0) ∧ remap_hw_desc 0 "128k" = "128k" :=
  ⟨by decide,
   ((c7_remap_on_description 0x80 "48k + MGT").1 (by decide)).1,
   ((c7_remap_on_description 0x80 "48k + MGT").1 (by decide)).2.1,
   ⟨by decide, by decide⟩,
   ((c7_remap_on_description 0x80 "48k + MGT").1 (by decide)).2.2
     (by decide) (by decide),
   by decide,
   (c7_remap_on_description 0 "128k").2 (by decide)⟩

/-- The compatibility check never fires for the fixed version-1
description. -/
theorem compat_warnings_48k : compat_warnings "48k" 0 = [] := rfl

/-- `decodeSnapshot` after a successful primary-header unpack: the `pc`
test selects the extended-header path or the version-1 body dispatch. -/
theorem decodeSnapshot_of_unpack (input : List Nat) (hdr : Header)
    (hu : unpackHeader (input.take 30) = .ok hdr) :
    decodeSnapshot input =
      if hdr.pc = 0 then decode_extended input
      else if v1_uncompressed hdr.flags then
        .ok { version := 1, hw_desc := "48k", nbr_banks := none,
              warnings := [],
              body := .v1Uncomp ((input.drop 30).take 0xc000) }
      else
        .ok { version := 1, hw_desc := "48k", nbr_banks := none,
              warnings := [],
              body := .v1Comp (input.drop 30) } := by
  unfold decodeSnapshot
  rw [hu]
  dsimp only
  rw [compat_warnings_48k]

/-- The version-1 body dispatch condition as a proposition. -/
theorem v1_uncompressed_iff (f : Nat) :
    v1_uncompressed f = true ↔ (f = 0xff ∨ f &&& 0x20 = 0) := by
  simp [v1_uncompressed]

/-- C8: a nonzero `pc` at entry yields format version 1 with hardware
description fixed to `"48k"` and no extended header read — the body is
built directly from the bytes following the 30-byte primary header; `pc`
equal to zero with a sub-header length of exactly 23 yields version 2;
`pc` zero with any other length yields version 3 (whenever decoding
succeeds at all). -/
theorem c8_version_determination (input : List Nat) (hdr : Header)
    (hu : unpackHeader (input.take 30) = .ok hdr) :
    (hdr.pc ≠ 0 →
       decodeSnapshot input =
         .ok { version := 1, hw_desc := "48k", nbr_banks := none,
               warnings := [],
               body := .v1Uncomp ((input.drop 30).take 0xc000) } ∨
       decodeSnapshot input =
         .ok { version := 1, hw_desc := "48k", nbr_banks := none,
               warnings := [],
               body := .v1Comp (input.drop 30) }) ∧
    (hdr.pc = 0 → ∀ shl, unpack2 ((input.drop 30).take 2) = .ok shl →
       ∀ r, decodeSnapshot input = .ok r →
         (shl = 23 → r.version = 2) ∧ (shl ≠ 23 → r.version = 3)) := by
  have hdec := decodeSnapshot_of_unpack input hdr hu
  constructor
  · intro hpc
    rw [if_neg hpc] at hdec
    by_cases hf : v1_uncompressed hdr.flags = true
    · left
      rw [hdec, if_pos hf]
    · right
      rw [hdec, if_neg hf]
  · intro hpc shl h2 r hr
    rw [hdec, if_pos hpc] at hr
    unfold decode_extended at hr
    rw [h2] at hr
    dsimp only at hr
    cases he : unpackExt ((input.drop 32).take 6) with
    | error e =>
      rw [he] at hr
      simp at hr
    | ok ext =>
      rw [he] at hr
      dsimp only at hr
      cases ht : (if shl = 23 then hw_table_v2 else hw_table_v3).get?
          ext.hw_type with
      | none =>
        rw [ht] at hr
        simp at hr
      | some p =>
        obtain ⟨d, nb⟩ := p
        rw [ht] at hr
        dsimp only at hr
        cases hp : read_pages input nb
            (if shl < 6 then input.length else 32 + shl) with
        | error e =>
          rw [hp] at hr
          simp [Except.map] at hr
        | ok ps =>
          rw [hp] at hr
          simp only [Except.map] at hr
          injection hr with hr'
          subst hr'
          constructor
          · intro h23
            simp [h23]
          · intro h23
            simp [h23]

theorem c8_version_witness :
    unpackHeader (c8_input.take 30) = .ok c8_header ∧ c8_header.pc ≠ 0 ∧
    (decodeSnapshot c8_input =
       .ok { version := 1, hw_desc := "48k", nbr_banks := none,
             warnings := [],
             body := .v1Uncomp ((c8_input.drop 30).take 0xc000) } ∨
     decodeSnapshot c8_input =
       .ok { version := 1, hw_desc := "48k", nbr_banks := none,
             warnings := [],
             body := .v1Comp (c8_input.drop 30) }) :=
  ⟨rfl, by decide,
   (c8_version_determination c8_input c8_header rfl).1 (by decide)⟩

/-- C10: for a version-1 snapshot (nonzero `pc`), the body is the single
uncompressed 0xC000-byte block if and only if the flags byte equals 0xff
or its bit 0x20 is clear; otherwise the body is everything up to end of
file, marked as one compressed (run-length-coded) block; and a flags byte
of exactly 0xff has bit 0x20 set, so it selects the uncompressed path
despite that bit. -/
theorem c10_v1_body_dispatch (input : List Nat) (hdr : Header)
    (hu : unpackHeader (input.take 30) = .ok hdr) (hpc : hdr.pc ≠ 0) :
    (decodeSnapshot input =
        .ok { version := 1, hw_desc := "48k", nbr_banks := none,
              warnings := [],
              body := .v1Uncomp ((input.drop 30).take 0xc000) }
      ↔ (hdr.flags = 0xff ∨ hdr.flags &&& 0x20 = 0)) ∧
    (¬(hdr.flags = 0xff ∨ hdr.flags &&& 0x20 = 0) →
       decodeSnapshot input =
         .ok { version := 1, hw_desc := "48k", nbr_banks := none,
               warnings := [],
               body := .v1Comp (input.drop 30) }) ∧
    (hdr.flags = 0xff → hdr.flags &&& 0x20 ≠ 0) := by
  have hdec := decodeSnapshot_of_unpack input hdr hu
  rw [if_neg hpc] at hdec
  by_cases hf : v1_uncompressed hdr.flags = true
  · rw [if_pos hf] at hdec
    refine ⟨⟨fun _ => (v1_uncompressed_iff hdr.flags).mp hf, fun _ => hdec⟩,
      fun hcond => absurd ((v1_uncompressed_iff hdr.flags).mp hf) hcond,
      fun h255 => by rw [h255]; decide⟩
  · rw [if_neg hf] at hdec
    have hcond : ¬(hdr.flags = 0xff ∨ hdr.flags &&& 0x20 = 0) := by
      intro hc
      exact hf ((v1_uncompressed_iff hdr.flags).mpr hc)
    refine ⟨⟨fun heq => ?_, fun hc => absurd hc hcond⟩,
      fun _ => hdec, fun h255 => by rw [h255]; decide⟩
    rw [hdec] at heq
    simp [SnapInfo.mk.injEq] at heq

theorem c10_v1_body_witness :
    unpackHeader (c10_input.take 30) = .ok c10_header ∧
    c10_header.pc ≠ 0 ∧ c10_header.flags = 0xff ∧
    decodeSnapshot c10_input =
      .ok { version := 1, hw_desc := "48k", nbr_banks := none,
            warnings := [],
            body := .v1Uncomp ((c10_input.drop 30).take 0xc000) } ∧
    c10_header.flags &&& 0x20 ≠ 0 :=
  ⟨rfl, by decide, by decide,
   (c10_v1_body_dispatch c10_input c10_header rfl (by decide)).1.mpr
     (Or.inl (by decide)),
   (c10_v1_body_dispatch c10_input c10_header rfl (by decide)).2.2
     (by decide)⟩
